import Mathlib

/-!
Verification of the natural-language specification of the
99tech code-challenge repository against a shallow embedding of its
TypeScript source.

Part 1: `src/problem4` — four variants of summing the integers 1..n.
Part 2: `src/problem5` — the CRUD resource service (repository,
controller, error handler, sanitization middleware).

JavaScript `number` values are modelled as `Nat`/`Int`/`Rat` as
appropriate; code that can `throw` is modelled with `Except String`.
-/

/-! ### Problem 4: sum to n

`implementations/iterative.ts`: the guards `n < 0` and `n === 0` both
return 0; over `Nat` the first is vacuous and the second coincides with
the empty loop.  The loop `for (i = 1; i <= n; i++) sum += i` is the
fold below (iteration `i` of `List.range n` adds `i + 1`). -/
def sumToNIterative (n : Nat) : Nat :=
  (List.range n).foldl (fun sum i => sum + (i + 1)) 0

/-- Number.MAX_SAFE_INTEGER (2^53 - 1). -/
def MAX_SAFE_INTEGER : Nat := 9007199254740991

/-- implementations/formula.ts `sumToNFormula`.  The guards
`!Number.isInteger(n)` and `n < 0` are vacuous over `Nat`.
`Math.floor(Math.sqrt(2 * Number.MAX_SAFE_INTEGER))` evaluates to
134217727.  The final line is
`n % 2 === 0 ? (n / 2) * (n + 1) : n * ((n + 1) / 2)`,
whose JavaScript divisions are exact, hence `Nat` division agrees. -/
def sumToNFormula (n : Nat) : Except String Nat :=
  if n > MAX_SAFE_INTEGER then .error "Input exceeds maximum safe integer"
  else if n = 0 then .ok 0
  else if n = 1 then .ok 1
  else if n > 134217727 then .error "Result would exceed maximum safe integer"
  else if n % 2 = 0 then .ok (n / 2 * (n + 1)) else .ok (n * ((n + 1) / 2))

/-- implementations/recursive.ts `MAX_RECURSION_DEPTH`. -/
def MAX_RECURSION_DEPTH : Nat := 10000

/-- implementations/recursive.ts `sumToNRecursiveTailOptimized`:
`if (n === 0) return accumulator; return f(n - 1, accumulator + n)`. -/
def sumToNRecursiveTailOptimized : Nat → Nat → Nat
  | 0, accumulator => accumulator
  | n + 1, accumulator => sumToNRecursiveTailOptimized n (accumulator + (n + 1))

/-- implementations/recursive.ts `sumToNRecursive`: the integer and
non-negativity guards are vacuous over `Nat`; inputs above
`MAX_RECURSION_DEPTH` throw. -/
def sumToNRecursive (n : Nat) : Except String Nat :=
  if n > MAX_RECURSION_DEPTH then
    .error "Input too large for recursive implementation (max: 10000)"
  else .ok (sumToNRecursiveTailOptimized n 0)

/-- implementations/recursive.ts `sumToNRecursiveDivideConquer`:
`if (n <= 1) return n;` then with `mid = Math.floor(n / 2)` it returns
`f(mid) + (f(n - mid) + mid * (n - mid))`; `mid` is inlined as `n / 2`. -/
def sumToNRecursiveDivideConquer (n : Nat) : Nat :=
  if n ≤ 1 then n
  else
    sumToNRecursiveDivideConquer (n / 2) +
      (sumToNRecursiveDivideConquer (n - n / 2) + n / 2 * (n - n / 2))
termination_by n
decreasing_by
  · omega
  · omega

/-- index.ts `sum_to_n_a`. -/
def sum_to_n_a (n : Nat) : Nat := sumToNIterative n

/-- index.ts `sum_to_n_b`. -/
def sum_to_n_b (n : Nat) : Except String Nat := sumToNFormula n

/-- index.ts `sum_to_n_c`. -/
def sum_to_n_c (n : Nat) : Except String Nat := sumToNRecursive n

/-- index.ts `sum_to_n_d`. -/
def sum_to_n_d (n : Nat) : Nat := sumToNRecursiveDivideConquer n

/-! ### Problem 5: data model (`models/resource.ts`)

`value` is a decimal column; it is modelled as `Rat`.  Timestamps are
modelled as `Nat` instants.  `metadata` is an open key-value map. -/

inductive ResourceType where
  | document | image | video | audio | other
  deriving DecidableEq, Repr

inductive ResourceStatus where
  | active | inactive | pending | archived
  deriving DecidableEq, Repr

/-- models/resource.ts `Resource` (the `resources` entity).  `id` is the
generated primary key. -/
structure Resource where
  id : Int
  name : String
  description : Option String := none
  type : ResourceType
  status : ResourceStatus
  value : Rat
  createdAt : Nat
  updatedAt : Nat
  metadata : Option (List (String × String)) := none
  deriving DecidableEq, Repr

/-- The entity store behind TypeORM: the table rows plus the
auto-increment counter feeding `PrimaryGeneratedColumn`. -/
structure Store where
  rows : List Resource
  nextId : Int
  deriving DecidableEq, Repr

/-- Ids handed out so far are positive and below the counter. -/
def Store.WF (st : Store) : Prop :=
  ∀ r ∈ st.rows, 0 < r.id ∧ r.id < st.nextId

/-- repositories/resourceRepository.ts `ResourceFilters`. -/
structure ResourceFilters where
  status : Option ResourceStatus := none
  type : Option ResourceType := none
  minValue : Option Rat := none
  maxValue : Option Rat := none
  createdAfter : Option Nat := none
  createdBefore : Option Nat := none

/-- repositories/resourceRepository.ts `ResourceUpdate`. -/
structure ResourceUpdate where
  name : Option String := none
  value : Option Rat := none
  status : Option ResourceStatus := none
  type : Option ResourceType := none

/-- repositories/resourceRepository.ts `CreateResourceData` (`status`
and `type` are optional). -/
structure CreateResourceData where
  name : String
  value : Rat
  status : Option ResourceStatus := none
  type : Option ResourceType := none

/-- A storage-layer failure as surfaced by the ORM driver (`error.code`
is e.g. the PostgreSQL `23505` unique-violation code). -/
structure DbErr where
  code : String
  message : String

/-- The character set removed by JavaScript `String.prototype.trim`
(ECMAScript WhiteSpace and LineTerminator). -/
def isJsSpace (c : Char) : Bool :=
  c = ' ' || c = '\t' || c = '\n' || c = '\r' || c = '\x0b' || c = '\x0c' ||
  c = '\u00a0' || c = '\u1680' ||
  (decide ('\u2000' ≤ c) && decide (c ≤ '\u200a')) ||
  c = '\u2028' || c = '\u2029' || c = '\u202f' || c = '\u205f' ||
  c = '\u3000' || c = '\ufeff'

/-- Model of `String.prototype.trim`: drop JS whitespace from both ends. -/
def trimChars (s : List Char) : List Char :=
  ((s.dropWhile isJsSpace).reverse.dropWhile isJsSpace).reverse

/-- JavaScript `.trim()` on a string value (kernel-computable; the Lean
`String.trim` is compiled by well-founded recursion and does not
reduce). -/
def jsTrim (s : String) : String := String.mk (trimChars s.data)

namespace ResourceRepository

/-- The ORM `save` on a fresh entity: assigns the generated key and
appends the row. -/
def tormSave (st : Store) (r : Resource) : Except DbErr (Store × Resource) :=
  let persisted := { r with id := st.nextId }
  .ok ({ rows := st.rows ++ [persisted], nextId := st.nextId + 1 }, persisted)

/-- Model of `ResourceRepository.create`.  The guard `!resourceData.name?.trim()`
is the emptiness of the trimmed name; `typeof value !== 'number'` is
vacuous over `Rat`.  The storage call is a parameter so that the
`catch` branch (unique-violation mapping to a plain `Error`) can be
exercised; `tormSave` is the non-failing instance. -/
def create (save : Store → Resource → Except DbErr (Store × Resource))
    (st : Store) (resourceData : CreateResourceData) (now : Nat) :
    Except String (Store × Resource) :=
  if (jsTrim resourceData.name).isEmpty then .error "Resource name is required"
  else if resourceData.value < 0 then
    .error "Resource value must be a non-negative number"
  else
    let resource : Resource := {
      id := 0  -- placeholder; the storage layer generates the key
      name := jsTrim resourceData.name
      type := resourceData.type.getD .other       -- entity column default
      status := resourceData.status.getD .active  -- entity column default
      value := resourceData.value
      createdAt := now
      updatedAt := now }
    match save st resource with
    | .ok result => .ok result
    | .error e =>
        if e.code = "23505" then .error "A resource with this name already exists"
        else .error ("Failed to create resource: " ++ e.message)

/-- Model of `ResourceRepository.findById`.  `!Number.isInteger(id)` is vacuous
over `Int`; `findOne` yields the first row with the id, or `null`. -/
def findById (st : Store) (id : Int) : Except String (Option Resource) :=
  if id ≤ 0 then .error "Invalid resource ID"
  else .ok (st.rows.find? (fun r => decide (r.id = id)))

/-- Model of `ResourceRepository.delete`: removes the rows with the id and
reports `affected > 0`. -/
def deleteById (st : Store) (id : Int) : Except String (Store × Bool) :=
  if id ≤ 0 then .error "Invalid resource ID"
  else
    let remaining := st.rows.filter (fun r => decide (r.id ≠ id))
    .ok ({ st with rows := remaining }, decide (remaining.length < st.rows.length))

/-- The conjunction of the `andWhere` predicates `findAll` builds: each
filter contributes only when present (`resource.status = :status`,
`value >= :minValue`, `value <= :maxValue`, date bounds). -/
def matchesFilters (filters : ResourceFilters) (r : Resource) : Bool :=
  (match filters.status with | some s => decide (r.status = s) | none => true) &&
  (match filters.type with | some t => decide (r.type = t) | none => true) &&
  (match filters.minValue with | some v => decide (v ≤ r.value) | none => true) &&
  (match filters.maxValue with | some v => decide (r.value ≤ v) | none => true) &&
  (match filters.createdAfter with | some d => decide (d ≤ r.createdAt) | none => true) &&
  (match filters.createdBefore with | some d => decide (r.createdAt ≤ d) | none => true)

/-- The `ORDER BY resource.createdAt DESC` ordering. -/
def byCreatedDesc : Resource → Resource → Prop :=
  fun a b => b.createdAt ≤ a.createdAt

instance : DecidableRel byCreatedDesc := fun _ _ => Nat.decLe _ _

instance : IsTotal Resource byCreatedDesc :=
  ⟨fun a b => (Nat.le_total a.createdAt b.createdAt).symm⟩

instance : IsTrans Resource byCreatedDesc :=
  ⟨fun _ _ _ hab hbc => Nat.le_trans hbc hab⟩

/-- The shape of the result object of `findAll`. -/
structure FindAllResult where
  resources : List Resource
  total : Nat
  page : Int
  totalPages : Nat
  deriving DecidableEq, Repr

/-- Model of `ResourceRepository.findAll`: validates pagination, applies the
filter predicates, counts the matches (`getManyAndCount`), orders by
`createdAt` descending, and pages with `skip ((page-1)*limit)` /
`take limit`.  `Math.ceil(total / limit)` is exact ceiling division. -/
def findAll (st : Store) (filters : ResourceFilters) (page : Int) (limit : Int) :
    Except String FindAllResult :=
  if page < 1 then .error "Page must be a positive integer"
  else if limit < 1 ∨ limit > 100 then .error "Limit must be between 1 and 100"
  else
    let matched := st.rows.filter (matchesFilters filters)
    let total := matched.length
    let sorted := List.insertionSort byCreatedDesc matched
    let offset := ((page - 1) * limit).toNat
    let resources := (sorted.drop offset).take limit.toNat
    .ok { resources := resources, total := total, page := page,
          totalPages := total ⌈/⌉ limit.toNat }

/-- Model of `ResourceRepository.update`: validates the id and the supplied
fields, returns `null` for a missing row, otherwise patches
`updatedAt` plus exactly the supplied fields and re-reads the row. -/
def update (st : Store) (id : Int) (updateData : ResourceUpdate) (now : Nat) :
    Except String (Store × Option Resource) :=
  if id ≤ 0 then .error "Invalid resource ID"
  else if updateData.name.any (fun s => (jsTrim s).isEmpty) then
    .error "Resource name cannot be empty"
  else if updateData.value.any (fun v => decide (v < 0)) then
    .error "Resource value must be a non-negative number"
  else
    match st.rows.find? (fun r => decide (r.id = id)) with
    | none => .ok (st, none)
    | some _ =>
        let patch : Resource → Resource := fun r =>
          { r with
            updatedAt := now
            name := (updateData.name.map jsTrim).getD r.name
            value := updateData.value.getD r.value
            status := updateData.status.getD r.status
            type := updateData.type.getD r.type }
        let rows := st.rows.map (fun r => if r.id = id then patch r else r)
        .ok ({ st with rows := rows },
             rows.find? (fun r => decide (r.id = id)))

/-- The validation loop of `ResourceRepository.bulkCreate`: each element
must have a non-empty trimmed name and a non-negative value; the first
offender aborts. -/
def validateBulk : List CreateResourceData → Except String Unit
  | [] => .ok ()
  | r :: rest =>
      if (jsTrim r.name).isEmpty then .error "All resources must have a valid name"
      else if r.value < 0 then
        .error "All resources must have a valid non-negative value"
      else validateBulk rest

/-- The ORM `save` on a list of fresh entities: sequential key
assignment. -/
def tormSaveMany (st : Store) : List Resource → Store × List Resource
  | [] => (st, [])
  | r :: rest =>
      let persisted := { r with id := st.nextId }
      let st1 : Store := { rows := st.rows ++ [persisted], nextId := st.nextId + 1 }
      let next := tormSaveMany st1 rest
      (next.1, persisted :: next.2)

/-- Model of `ResourceRepository.bulkCreate`: rejects an empty list, validates
every element before any persistence, then maps each element to an
entity (trimmed name, both timestamps `now`) and saves them all.  The
unique-violation `catch` is not reachable in the in-memory store model
(the entity declares no unique column). -/
def bulkCreate (st : Store) (resources : List CreateResourceData) (now : Nat) :
    Except String (Store × List Resource) :=
  if resources.isEmpty then
    .error "Resources array is required and cannot be empty"
  else
    match validateBulk resources with
    | .error e => .error e
    | .ok _ =>
        let entities := resources.map (fun resource => ({
          id := 0
          name := jsTrim resource.name
          type := resource.type.getD .other
          status := resource.status.getD .active
          value := resource.value
          createdAt := now
          updatedAt := now } : Resource))
        .ok (tormSaveMany st entities)

end ResourceRepository

/-! ### Sanitization middleware (`middleware/validation.ts`)

JSON-like request values; strings are lists of characters so that the
character-level regex replacements can be modelled exactly. -/

inductive JVal where
  | str (s : List Char)
  | num (q : Rat)
  | boolean (b : Bool)
  | null
  | arr (elements : List JVal)
  | obj (entries : List (List Char × JVal))

/-- Word characters of the regex class `\w`. -/
def isWordChar (c : Char) : Bool := c.isAlphanum || c = '_'

/-- The characters the regex `.` does not match (ECMAScript
LineTerminator). -/
def isLineTerminator (c : Char) : Bool :=
  c = '\n' || c = '\r' || c = '\u2028' || c = '\u2029'

/-- Case-insensitive match of the lowercase literal `pat` at the head of
the input; returns the remainder on success. -/
def stripCI : List Char → List Char → Option (List Char)
  | [], s => some s
  | _ :: _, [] => none
  | p :: ps, c :: cs => if c.toLower = p then stripCI ps cs else none

/-- Lowercase spelling of the literal regex `/javascript:/`. -/
def jsProtoPat : List Char := "javascript:".toList

/-- Global left-to-right removal of `/javascript:/gi` as performed by
`value.replace` with the global regex `/javascript:/gi`: at each position either one
occurrence is stripped and scanning resumes after it (a single pass:
the replacement text is not rescanned), or the character is kept.  The
fuel argument starts at the input length and dominates every recursive
call, so the `0` branch is unreachable. -/
def removeJSProtoAux : Nat → List Char → List Char
  | _, [] => []
  | 0, s => s
  | fuel + 1, c :: cs =>
      match stripCI jsProtoPat (c :: cs) with
      | some rest => removeJSProtoAux fuel rest
      | none => c :: removeJSProtoAux fuel cs

def removeJSProto (s : List Char) : List Char := removeJSProtoAux s.length s

/-- Lowercase spellings of the script-tag delimiters. -/
def scriptOpenPat : List Char := "<script".toList

def scriptClosePat : List Char := "</script>".toList

/-- The lazy suffix search `.*?<\/script>` (case-insensitive): find the
earliest closing tag, stepping over characters `.` can match; a line
terminator aborts the match. -/
def findScriptClose : List Char → Option (List Char)
  | [] => none
  | c :: cs =>
      match stripCI scriptClosePat (c :: cs) with
      | some rest => some rest
      | none => if isLineTerminator c then none else findScriptClose cs

/-- One attempted match of `/<script[^>]*>.*?<\/script>/i` at the head
of the input: the literal `<script`, then `[^>]*>` (greedily up to the
first `>`, which must exist), then the lazy close search.  Returns the
remainder after the match. -/
def matchScriptTag (s : List Char) : Option (List Char) :=
  match stripCI scriptOpenPat s with
  | none => none
  | some r1 =>
      match r1.dropWhile (fun c => !(c = '>' : Bool)) with
      | '>' :: r2 => findScriptClose r2
      | _ => none

/-- Global removal of `/<script[^>]*>.*?<\/script>/gi` (same single-pass
scheme and fuel discipline as `removeJSProtoAux`). -/
def removeScriptTagsAux : Nat → List Char → List Char
  | _, [] => []
  | 0, s => s
  | fuel + 1, c :: cs =>
      match matchScriptTag (c :: cs) with
      | some rest => removeScriptTagsAux fuel rest
      | none => c :: removeScriptTagsAux fuel cs

def removeScriptTags (s : List Char) : List Char := removeScriptTagsAux s.length s

/-- One attempted match of `/on\w+=/i` at the head of the input: `on`
(case-insensitive), a maximal non-empty `\w` run, then `=` (shorter
runs cannot back-track into a match since `=` is not a word
character). -/
def matchOnHandler (s : List Char) : Option (List Char) :=
  match s with
  | c1 :: c2 :: rest =>
      if (c1.toLower = 'o' : Bool) && (c2.toLower = 'n' : Bool) then
        match rest.takeWhile isWordChar, rest.dropWhile isWordChar with
        | [], _ => none
        | _ :: _, '=' :: r2 => some r2
        | _, _ => none
      else none
  | _ => none

/-- Global removal of `/on\w+=/gi` (same single-pass scheme). -/
def removeOnHandlersAux : Nat → List Char → List Char
  | _, [] => []
  | 0, s => s
  | fuel + 1, c :: cs =>
      match matchOnHandler (c :: cs) with
      | some rest => removeOnHandlersAux fuel rest
      | none => c :: removeOnHandlersAux fuel cs

def removeOnHandlers (s : List Char) : List Char := removeOnHandlersAux s.length s

/-- validation.ts `sanitizeValue` on a string: the three removal passes
in source order, then `trim`. -/
def sanitizeString (s : List Char) : List Char :=
  trimChars (removeOnHandlers (removeJSProto (removeScriptTags s)))

/-- validation.ts `sanitizeValue`: strings are cleaned, every other
primitive is returned unchanged. -/
def sanitizeValue : JVal → JVal
  | .str s => .str (sanitizeString s)
  | v => v

/-- The dangerous-key test of `sanitizeObject`:
`key.startsWith('__') || key === 'constructor' || key === 'prototype'`. -/
def badKey (k : List Char) : Bool :=
  (match k with | '_' :: '_' :: _ => true | _ => false) ||
  decide (k = "constructor".toList) || decide (k = "prototype".toList)

mutual

/-- validation.ts `sanitizeObject`: primitives go through
`sanitizeValue` (`null` included, as the JS typeof of null is object and it falls
into the null test), arrays map recursively, objects drop dangerous
keys and recurse into the remaining values. -/
def sanitizeObject : JVal → JVal
  | .arr elements => .arr (sanitizeArr elements)
  | .obj entries => .obj (sanitizeEntries entries)
  | v => sanitizeValue v

def sanitizeArr : List JVal → List JVal
  | [] => []
  | x :: xs => sanitizeObject x :: sanitizeArr xs

def sanitizeEntries : List (List Char × JVal) → List (List Char × JVal)
  | [] => []
  | (k, v) :: rest =>
      if badKey k then sanitizeEntries rest
      else (k, sanitizeObject v) :: sanitizeEntries rest

end

/-- validation.ts `sanitizeRequest`: sanitizes `req.body` and
`req.query` when present. -/
def sanitizeRequest (reqBody reqQuery : Option JVal) : Option JVal × Option JVal :=
  (reqBody.map sanitizeObject, reqQuery.map sanitizeObject)

mutual

/-- No object at any nesting depth keeps a dangerous key. -/
def keysOk : JVal → Bool
  | .arr elements => keysOkArr elements
  | .obj entries => keysOkEntries entries
  | _ => true

def keysOkArr : List JVal → Bool
  | [] => true
  | x :: xs => keysOk x && keysOkArr xs

def keysOkEntries : List (List Char × JVal) → Bool
  | [] => true
  | (k, v) :: rest => !badKey k && keysOk v && keysOkEntries rest

end

mutual

/-- Whether a JSON value contains, at any nesting depth, an object
entry with the given key. -/
def hasKeyDeep (key : List Char) : JVal → Bool
  | .arr elements => hasKeyDeepArr key elements
  | .obj entries => hasKeyDeepEntries key entries
  | _ => false

def hasKeyDeepArr (key : List Char) : List JVal → Bool
  | [] => false
  | x :: xs => hasKeyDeep key x || hasKeyDeepArr key xs

def hasKeyDeepEntries (key : List Char) : List (List Char × JVal) → Bool
  | [] => false
  | (k, v) :: rest =>
      decide (k = key) || hasKeyDeep key v || hasKeyDeepEntries key rest

end

/-- A string carries no JS whitespace at either end. -/
def noEdgeSpace (s : List Char) : Bool :=
  (match s.head? with | some c => !isJsSpace c | none => true) &&
  (match s.getLast? with | some c => !isJsSpace c | none => true)

mutual

/-- Every string value at any nesting depth is trimmed. -/
def stringsTrimmed : JVal → Bool
  | .str s => noEdgeSpace s
  | .arr elements => stringsTrimmedArr elements
  | .obj entries => stringsTrimmedEntries entries
  | _ => true

def stringsTrimmedArr : List JVal → Bool
  | [] => true
  | x :: xs => stringsTrimmed x && stringsTrimmedArr xs

def stringsTrimmedEntries : List (List Char × JVal) → Bool
  | [] => true
  | (_, v) :: rest => stringsTrimmed v && stringsTrimmedEntries rest

end

/-! ### Error handling (`middleware/errorHandler.ts`, `models/errors.ts`) -/

/-- errorHandler.ts `ApiError`: an `Error` with an optional
`statusCode` (a plain `new Error(...)` has none) and the engine-managed
`stack`. -/
structure ApiError where
  message : String
  statusCode : Option Int := none
  stack : Option String := none

/-- The HTTP response bodies the controller and error handler produce. -/
inductive Body where
  | errMsg (error : String)
  | listPage (data : List Resource) (page : Int) (limit : Int) (total : Nat)
      (totalPages : Nat)
  | entity (message : Option String) (data : Resource)
  | entities (message : String) (data : List Resource)
  | json (j : JVal)

structure HttpResp where
  status : Int
  body : Body

/-- errorHandler.ts `errorHandler`: `err.statusCode || 500` (JS `||`
treats `0` as falsy), `err.message || 'Internal Server Error'`, and the
response `res.status(statusCode).json({ error: { message, statusCode,
timestamp } })`.  `now` stands for `new Date().toISOString()`. -/
def errorHandler (err : ApiError) (now : Nat) : HttpResp :=
  let statusCode : Int :=
    match err.statusCode with
    | some s => if s = 0 then 500 else s
    | none => 500
  let message := if err.message = "" then "Internal Server Error" else err.message
  { status := statusCode
    body := .json (.obj [("error".toList, .obj [
      ("message".toList, .str message.toList),
      ("statusCode".toList, .num (statusCode : Rat)),
      ("timestamp".toList, .str (toString now).toList)])]) }

/-- models/errors.ts `ConflictError`: carries status code 409.  It is
part of the error taxonomy but unused by the repository paths below. -/
def ConflictError (message : String) : ApiError :=
  { message := message, statusCode := some 409 }

/-! ### Controller (`controllers/resourceController.ts`, the TypeORM
variant).  Filter construction from raw query strings is passed through
pre-parsed (`new Date` parsing is engine-specific); the pagination
parsing, which the claims concern, is modelled exactly. -/

namespace ResourceController

/-- JS `parseInt(s, 10)`: skip whitespace, optional sign, then the
leading run of decimal digits; no digits means `NaN` (`none`). -/
def parseIntJS (s : String) : Option Int :=
  let signed : Int × List Char :=
    match s.toList.dropWhile isJsSpace with
    | '-' :: cs => (-1, cs)
    | '+' :: cs => (1, cs)
    | cs => (1, cs)
  let digits := signed.2.takeWhile Char.isDigit
  if digits.isEmpty then none
  else some (signed.1 *
    ((digits.foldl (fun acc c => acc * 10 + (c.toNat - 48)) 0 : Nat) : Int))

/-- JS `x || d` on a parsed number: `NaN` and `0` are falsy. -/
def jsOr (v : Option Int) (d : Int) : Int :=
  match v with
  | some x => if x = 0 then d else x
  | none => d

/-- Model of `ResourceController.getAllResources`: destructuring defaults
`page` defaulting to the string 1 and `limit` to the string 20, then
`pageNum = Math.max(1, parseInt(page, 10) || 1)` and
`limitNum = Math.min(100, Math.max(1, parseInt(limit, 10) || 20))`;
a repository error reaches `next(error)` and thus `errorHandler` (the
repository throws plain `Error`s, which carry no status code). -/
def getAllResources (st : Store) (filters : ResourceFilters)
    (page : Option String) (limit : Option String) (now : Nat) : HttpResp :=
  match ResourceRepository.findAll st filters
      (max 1 (jsOr (parseIntJS (page.getD "1")) 1))
      (min 100 (max 1 (jsOr (parseIntJS (limit.getD "20")) 20))) with
  | .ok result =>
      { status := 200
        body := .listPage result.resources result.page
          (min 100 (max 1 (jsOr (parseIntJS (limit.getD "20")) 20))) result.total
          result.totalPages }
  | .error msg => errorHandler { message := msg } now

/-- Model of `ResourceController.createResource`: fail-fast structural checks
(400 without touching the repository), then the repository call with
controller-supplied defaults `status || ACTIVE`, `type || OTHER`; 201
on success; errors go to the centralized handler. -/
def createResource (save : Store → Resource → Except DbErr (Store × Resource))
    (st : Store) (reqBody : CreateResourceData) (now : Nat) : HttpResp × Store :=
  if (jsTrim reqBody.name).isEmpty then
    ({ status := 400, body := .errMsg "Resource name is required" }, st)
  else if reqBody.value < 0 then
    ({ status := 400, body := .errMsg "Resource value must be a non-negative number" }, st)
  else
    match ResourceRepository.create save st
      { name := jsTrim reqBody.name, value := reqBody.value,
        status := some (reqBody.status.getD .active),
        type := some (reqBody.type.getD .other) } now with
    | .ok (st', r) =>
        ({ status := 201, body := .entity (some "Resource created successfully") r }, st')
    | .error msg => (errorHandler { message := msg } now, st)

/-- The per-element validation loop of
`ResourceController.bulkCreateResources`, carrying the running index
`i`; the first offending element produces the 400 response naming it. -/
def bulkValidateLoop : List CreateResourceData → Nat → Option HttpResp
  | [], _ => none
  | r :: rest, i =>
      if (jsTrim r.name).isEmpty then
        some { status := 400,
               body := .errMsg ("Resource at index " ++ toString i ++
                 " must have a valid name") }
      else if r.value < 0 then
        some { status := 400,
               body := .errMsg ("Resource at index " ++ toString i ++
                 " must have a valid non-negative value") }
      else bulkValidateLoop rest (i + 1)

/-- Model of `ResourceController.bulkCreateResources`: `none` models a body
whose `resources` is not an array; an empty or invalid list is rejected
with 400 before the repository is called, otherwise the elements are
mapped (trim, controller defaults) and handed to
`ResourceRepository.bulkCreate`, answering 201 with the created
count. -/
def bulkCreateResources (st : Store) (resources : Option (List CreateResourceData))
    (now : Nat) : HttpResp × Store :=
  match resources with
  | none =>
      ({ status := 400,
         body := .errMsg "Resources array is required and cannot be empty" }, st)
  | some items =>
      if items.isEmpty then
        ({ status := 400,
           body := .errMsg "Resources array is required and cannot be empty" }, st)
      else
        match bulkValidateLoop items 0 with
        | some resp => (resp, st)
        | none =>
            let createData := items.map (fun resource => ({
              name := jsTrim resource.name, value := resource.value,
              status := some (resource.status.getD .active),
              type := some (resource.type.getD .other) } : CreateResourceData))
            match ResourceRepository.bulkCreate st createData now with
            | .ok (st', created) =>
                ({ status := 201,
                   body := .entities ("Successfully created " ++
                     toString created.length ++ " resources") created }, st')
            | .error msg => (errorHandler { message := msg } now, st)

end ResourceController

/-! ### Theorems -/

/-- Gauss step: the triangular number of `k + 1` adds `k + 1` to that
of `k`; stated in the successor shape in which it occurs in goals. -/
theorem gauss_succ (k : Nat) :
    (k + 1) * (k + 1 + 1) / 2 = (k + 1) + k * (k + 1) / 2 := by
  have he : k * (k + 1) % 2 = 0 := Nat.even_iff.mp (Nat.even_mul_succ_self k)
  have e : (k + 1) * (k + 1 + 1) = k * (k + 1) + 2 * (k + 1) := by ring
  rw [e]
  generalize k * (k + 1) = m at he ⊢
  omega

/-- The iterative loop computes the triangular number. -/
theorem foldl_range_add (n acc : Nat) :
    (List.range n).foldl (fun sum i => sum + (i + 1)) acc
      = acc + n * (n + 1) / 2 := by
  induction n generalizing acc with
  | zero => simp
  | succ k ih =>
      rw [List.range_succ, List.foldl_append]
      simp only [List.foldl_cons, List.foldl_nil]
      rw [ih, gauss_succ]
      generalize k * (k + 1) / 2 = g
      omega

/-- The tail-recursive helper computes the triangular number. -/
theorem sumToNRecursiveTailOptimized_eq (n : Nat) :
    ∀ acc, sumToNRecursiveTailOptimized n acc = acc + n * (n + 1) / 2 := by
  induction n with
  | zero => intro acc; simp [sumToNRecursiveTailOptimized]
  | succ k ih =>
      intro acc
      rw [sumToNRecursiveTailOptimized, ih, gauss_succ]
      generalize k * (k + 1) / 2 = g
      omega

/-- The closed-form implementation computes the triangular number on
inputs below its overflow guard. -/
theorem sumToNFormula_eq (n : Nat) (h : n ≤ 134217727) :
    sumToNFormula n = .ok (n * (n + 1) / 2) := by
  have h1 : ¬ n > MAX_SAFE_INTEGER := by unfold MAX_SAFE_INTEGER; omega
  have h2 : ¬ n > 134217727 := by omega
  unfold sumToNFormula
  rw [if_neg h1]
  by_cases h0 : n = 0
  · subst h0; rfl
  rw [if_neg h0]
  by_cases hone : n = 1
  · subst hone; rfl
  rw [if_neg hone, if_neg h2]
  by_cases hp : n % 2 = 0
  · rw [if_pos hp]
    obtain ⟨k, rfl⟩ : ∃ k, n = 2 * k := ⟨n / 2, by omega⟩
    congr 1
    rw [Nat.mul_div_cancel_left k (by norm_num), mul_assoc,
      Nat.mul_div_cancel_left _ (by norm_num)]
  · rw [if_neg hp]
    obtain ⟨k, rfl⟩ : ∃ k, n = 2 * k + 1 := ⟨n / 2, by omega⟩
    congr 1
    have e1 : 2 * k + 1 + 1 = 2 * (k + 1) := by ring
    rw [e1, Nat.mul_div_cancel_left _ (by norm_num),
      show (2 * k + 1) * (2 * (k + 1)) = 2 * ((2 * k + 1) * (k + 1)) from by ring,
      Nat.mul_div_cancel_left _ (by norm_num)]

/-- Splitting a triangular number at any point: this is the recurrence
the divide-and-conquer variant relies on. -/
theorem gauss_add (a b : Nat) :
    (a + b) * (a + b + 1) / 2 = a * (a + 1) / 2 + (b * (b + 1) / 2 + a * b) := by
  have ea : a * (a + 1) % 2 = 0 := Nat.even_iff.mp (Nat.even_mul_succ_self a)
  have eb : b * (b + 1) % 2 = 0 := Nat.even_iff.mp (Nat.even_mul_succ_self b)
  have key : (a + b) * (a + b + 1) = a * (a + 1) + (b * (b + 1) + 2 * (a * b)) := by
    ring
  rw [key]
  generalize a * (a + 1) = x at ea ⊢
  generalize b * (b + 1) = y at eb ⊢
  generalize a * b = z
  omega

/-- The divide-and-conquer implementation computes the triangular
number for every input. -/
theorem sumToNRecursiveDivideConquer_eq (n : Nat) :
    sumToNRecursiveDivideConquer n = n * (n + 1) / 2 := by
  induction n using Nat.strong_induction_on with
  | _ n ih =>
    unfold sumToNRecursiveDivideConquer
    by_cases h : n ≤ 1
    · rw [if_pos h]
      have h01 : n = 0 ∨ n = 1 := by omega
      rcases h01 with rfl | rfl <;> rfl
    · rw [if_neg h]
      rw [ih (n / 2) (by omega), ih (n - n / 2) (by omega)]
      have key := gauss_add (n / 2) (n - n / 2)
      have e : n / 2 + (n - n / 2) = n := by omega
      rw [e] at key
      generalize n / 2 * (n / 2 + 1) / 2 = A at key ⊢
      generalize (n - n / 2) * (n - n / 2 + 1) / 2 = B at key ⊢
      generalize n / 2 * (n - n / 2) = C at key ⊢
      generalize n * (n + 1) / 2 = D at key ⊢
      omega

/-- C9: for every integer n with 0 ≤ n ≤ 10000, the iterative,
closed-form, recursive and divide-and-conquer implementations all
return the same result, equal to n·(n+1)/2 (the fallible variants
return it successfully). -/
theorem sum_to_n_variants_agree (n : Nat) (h : n ≤ 10000) :
    sum_to_n_a n = n * (n + 1) / 2 ∧
    sum_to_n_b n = .ok (n * (n + 1) / 2) ∧
    sum_to_n_c n = .ok (n * (n + 1) / 2) ∧
    sum_to_n_d n = n * (n + 1) / 2 := by
  refine ⟨?_, sumToNFormula_eq n (by omega), ?_, sumToNRecursiveDivideConquer_eq n⟩
  · unfold sum_to_n_a sumToNIterative
    rw [foldl_range_add, Nat.zero_add]
  · unfold sum_to_n_c sumToNRecursive
    rw [if_neg (by unfold MAX_RECURSION_DEPTH; omega),
      sumToNRecursiveTailOptimized_eq n 0, Nat.zero_add]

/-- C9 witness: the agreement theorem applied at the concrete input 100. -/
theorem sum_to_n_variants_agree_witness :
    100 ≤ 10000 ∧
      (sum_to_n_a 100 = 100 * (100 + 1) / 2 ∧
       sum_to_n_b 100 = .ok (100 * (100 + 1) / 2) ∧
       sum_to_n_c 100 = .ok (100 * (100 + 1) / 2) ∧
       sum_to_n_d 100 = 100 * (100 + 1) / 2) :=
  ⟨by omega, sum_to_n_variants_agree 100 (by omega)⟩

/-- C7: for every positive integer id, delete returns a boolean that is
true exactly when a stored row with that id was removed; afterwards
findById yields null and a second delete of the same id returns
false. -/
theorem deleteById_spec (st : Store) (id : Int) (hpos : 0 < id) :
    ∃ st' removed, ResourceRepository.deleteById st id = .ok (st', removed) ∧
      ((removed = true) ↔ ∃ r ∈ st.rows, r.id = id) ∧
      ResourceRepository.findById st' id = .ok none ∧
      ResourceRepository.deleteById st' id = .ok (st', false) := by
  have hneg : ¬ id ≤ 0 := by omega
  refine ⟨{ st with rows := st.rows.filter (fun r => decide (r.id ≠ id)) },
    decide ((st.rows.filter (fun r => decide (r.id ≠ id))).length < st.rows.length),
    ?_, ?_, ?_, ?_⟩
  · unfold ResourceRepository.deleteById
    rw [if_neg hneg]
  · rw [decide_eq_true_iff, List.length_filter_lt_length_iff_exists]
    simp
  · unfold ResourceRepository.findById
    rw [if_neg hneg]
    congr 1
    rw [List.find?_eq_none]
    intro x hx
    have hmem := (List.mem_filter.mp hx).2
    simp at hmem ⊢
    exact hmem
  · unfold ResourceRepository.deleteById
    rw [if_neg hneg]
    have heq : (st.rows.filter (fun r => decide (r.id ≠ id))).filter
        (fun r => decide (r.id ≠ id)) = st.rows.filter (fun r => decide (r.id ≠ id)) :=
      List.filter_eq_self.mpr (fun a ha => (List.mem_filter.mp ha).2)
    simp [heq]

/-- C7 witness: a store holding one row with id 1. -/
theorem deleteById_spec_witness :
    0 < (1 : Int) ∧
    ∃ st' removed,
      ResourceRepository.deleteById
        (Store.mk [Resource.mk 1 "Doc A" none .other .active 10 0 0 none] 2) 1
        = .ok (st', removed) ∧
      ((removed = true) ↔
        ∃ r ∈ [Resource.mk 1 "Doc A" none .other .active 10 0 0 none], r.id = 1) ∧
      ResourceRepository.findById st' 1 = .ok none ∧
      ResourceRepository.deleteById st' 1 = .ok (st', false) :=
  ⟨by norm_num,
   deleteById_spec
     (Store.mk [Resource.mk 1 "Doc A" none .other .active 10 0 0 none] 2) 1
     (by norm_num)⟩

/-- C6: a creation payload with non-empty trimmed name and non-negative
value succeeds; the persisted entity has the trimmed name, the entity
defaults for omitted status and type, both timestamps set to now, and a
newly generated id distinct from every stored id; payloads with an
empty trimmed name or a negative value are rejected with a validation
error. -/
theorem create_spec (st : Store) (data : CreateResourceData) (now : Nat)
    (hwf : st.WF) :
    ((jsTrim data.name).isEmpty = false → 0 ≤ data.value →
      ∃ st' r, ResourceRepository.create ResourceRepository.tormSave st data now
          = .ok (st', r) ∧
        r.name = jsTrim data.name ∧
        r.status = data.status.getD .active ∧
        r.type = data.type.getD .other ∧
        r.createdAt = now ∧ r.updatedAt = now ∧
        (∀ x ∈ st.rows, x.id ≠ r.id)) ∧
    ((jsTrim data.name).isEmpty = true →
      ResourceRepository.create ResourceRepository.tormSave st data now
        = .error "Resource name is required") ∧
    ((jsTrim data.name).isEmpty = false → data.value < 0 →
      ResourceRepository.create ResourceRepository.tormSave st data now
        = .error "Resource value must be a non-negative number") := by
  refine ⟨?_, ?_, ?_⟩
  · intro hname hval
    have hv : ¬ data.value < 0 := not_lt.mpr hval
    refine ⟨Store.mk (st.rows ++ [Resource.mk st.nextId (jsTrim data.name) none
        (data.type.getD .other) (data.status.getD .active) data.value now now none])
        (st.nextId + 1),
      Resource.mk st.nextId (jsTrim data.name) none (data.type.getD .other)
        (data.status.getD .active) data.value now now none,
      ?_, rfl, rfl, rfl, rfl, rfl, ?_⟩
    · unfold ResourceRepository.create ResourceRepository.tormSave
      simp [hname, hv]
    · intro x hx
      have hlt : x.id < st.nextId := (hwf x hx).2
      show x.id ≠ st.nextId
      omega
  · intro hname
    unfold ResourceRepository.create
    simp [hname]
  · intro hname hval
    unfold ResourceRepository.create
    simp [hname, hval]

/-- C6 witness: creating Doc A with value 10 in an empty store. -/
theorem create_spec_witness :
    ((jsTrim "Doc A").isEmpty = false → (0 : Rat) ≤ 10 →
      ∃ st' r, ResourceRepository.create ResourceRepository.tormSave (Store.mk [] 1)
          (CreateResourceData.mk "Doc A" 10 none none) 0 = .ok (st', r) ∧
        r.name = jsTrim "Doc A" ∧
        r.status = (none : Option ResourceStatus).getD .active ∧
        r.type = (none : Option ResourceType).getD .other ∧
        r.createdAt = 0 ∧ r.updatedAt = 0 ∧
        (∀ x ∈ (Store.mk [] 1).rows, x.id ≠ r.id)) ∧
    ((jsTrim "Doc A").isEmpty = true →
      ResourceRepository.create ResourceRepository.tormSave (Store.mk [] 1)
        (CreateResourceData.mk "Doc A" 10 none none) 0
        = .error "Resource name is required") ∧
    ((jsTrim "Doc A").isEmpty = false → (10 : Rat) < 0 →
      ResourceRepository.create ResourceRepository.tormSave (Store.mk [] 1)
        (CreateResourceData.mk "Doc A" 10 none none) 0
        = .error "Resource value must be a non-negative number") :=
  create_spec (Store.mk [] 1) (CreateResourceData.mk "Doc A" 10 none none) 0
    (fun r hr => absurd hr (List.not_mem_nil r))

/-- Patching exactly the rows carrying the looked-up id commutes with
the lookup when the patch preserves ids. -/
theorem find?_map_patched (rows : List Resource) (id : Int)
    (patch : Resource → Resource) (hid : ∀ r, (patch r).id = r.id) :
    (rows.map (fun r => if r.id = id then patch r else r)).find?
        (fun r => decide (r.id = id))
      = (rows.find? (fun r => decide (r.id = id))).map patch := by
  induction rows with
  | nil => rfl
  | cons a l ih =>
      by_cases h : a.id = id
      · rw [List.map_cons, if_pos h, List.find?_cons_of_pos _ (by simp [hid, h]),
          List.find?_cons_of_pos _ (by simp [h])]
        rfl
      · rw [List.map_cons, if_neg h, List.find?_cons_of_neg _ (by simp [hid, h]),
          List.find?_cons_of_neg _ (by simp [h]), ih]

/-- C4: an empty patch on an existing id succeeds and changes only
updatedAt; name, description, type, status, value, metadata, id and
createdAt keep their pre-update values. -/
theorem update_empty_patch (st : Store) (id : Int) (now : Nat) (r : Resource)
    (hpos : 0 < id)
    (hfind : st.rows.find? (fun x => decide (x.id = id)) = some r) :
    ∃ st' r',
      ResourceRepository.update st id (ResourceUpdate.mk none none none none) now
        = .ok (st', some r') ∧
      r'.name = r.name ∧ r'.description = r.description ∧ r'.type = r.type ∧
      r'.status = r.status ∧ r'.value = r.value ∧ r'.metadata = r.metadata ∧
      r'.id = r.id ∧ r'.createdAt = r.createdAt ∧ r'.updatedAt = now := by
  have hneg : ¬ id ≤ 0 := by omega
  refine ⟨Store.mk (st.rows.map (fun x => if x.id = id then
      Resource.mk x.id x.name x.description x.type x.status x.value x.createdAt now
        x.metadata
      else x)) st.nextId,
    Resource.mk r.id r.name r.description r.type r.status r.value r.createdAt now
      r.metadata,
    ?_, rfl, rfl, rfl, rfl, rfl, rfl, rfl, rfl, rfl⟩
  unfold ResourceRepository.update
  rw [if_neg hneg]
  simp only [Option.any_none, Bool.false_eq_true, if_false]
  rw [hfind]
  rw [find?_map_patched st.rows id (fun x => Resource.mk x.id
      ((Option.map jsTrim none).getD x.name) x.description
      ((none : Option ResourceType).getD x.type)
      ((none : Option ResourceStatus).getD x.status)
      ((none : Option Rat).getD x.value) x.createdAt now x.metadata)
    (fun x => rfl), hfind]
  rfl

/-- C4 witness: empty patch at time 9 on a row created at time 5. -/
theorem update_empty_patch_witness :
    0 < (1 : Int) ∧
    ∃ st' r',
      ResourceRepository.update
          (Store.mk [Resource.mk 1 "Doc A" none .other .active 10 5 5 none] 2) 1
          (ResourceUpdate.mk none none none none) 9 = .ok (st', some r') ∧
      r'.name = "Doc A" ∧ r'.description = none ∧ r'.type = .other ∧
      r'.status = .active ∧ r'.value = 10 ∧ r'.metadata = none ∧
      r'.id = 1 ∧ r'.createdAt = 5 ∧ r'.updatedAt = 9 :=
  ⟨by norm_num,
   update_empty_patch
     (Store.mk [Resource.mk 1 "Doc A" none .other .active 10 5 5 none] 2) 1 9
     (Resource.mk 1 "Doc A" none .other .active 10 5 5 none) (by norm_num) (by rfl)⟩

/-- C5: for valid pagination, findAll returns at most limit entities,
ordered by creation time descending and all matching the filter; total
is the count of all matching rows independent of page and limit, and
totalPages is the ceiling of total over limit. -/
theorem findAll_spec (st : Store) (filters : ResourceFilters) (page limit : Int)
    (hp : 1 ≤ page) (hl1 : 1 ≤ limit) (hl2 : limit ≤ 100) :
    ∃ res : ResourceRepository.FindAllResult,
      ResourceRepository.findAll st filters page limit = .ok res ∧
      res.resources.length ≤ limit.toNat ∧
      List.Pairwise (fun a b => b.createdAt ≤ a.createdAt) res.resources ∧
      (∀ r ∈ res.resources, ResourceRepository.matchesFilters filters r = true) ∧
      res.total = (st.rows.filter (ResourceRepository.matchesFilters filters)).length ∧
      res.totalPages = res.total ⌈/⌉ limit.toNat ∧
      res.total ≤ limit.toNat * res.totalPages ∧
      (∀ m : Nat, res.total ≤ limit.toNat * m → res.totalPages ≤ m) := by
  have h1 : ¬ page < 1 := by omega
  have h2 : ¬ (limit < 1 ∨ limit > 100) := by push_neg; omega
  have hlpos : 0 < limit.toNat := by omega
  refine ⟨ResourceRepository.FindAllResult.mk
      (((List.insertionSort ResourceRepository.byCreatedDesc
          (st.rows.filter (ResourceRepository.matchesFilters filters))).drop
          ((page - 1) * limit).toNat).take limit.toNat)
      (st.rows.filter (ResourceRepository.matchesFilters filters)).length
      page
      ((st.rows.filter (ResourceRepository.matchesFilters filters)).length
        ⌈/⌉ limit.toNat),
    ?_, ?_, ?_, ?_, rfl, rfl, ?_, ?_⟩
  · unfold ResourceRepository.findAll
    rw [if_neg h1, if_neg h2]
  · exact List.length_take_le _ _
  · exact List.Pairwise.sublist ((List.take_sublist _ _).trans (List.drop_sublist _ _))
      (List.sorted_insertionSort ResourceRepository.byCreatedDesc _)
  · intro r hr
    have hr2 : r ∈ List.insertionSort ResourceRepository.byCreatedDesc
        (st.rows.filter (ResourceRepository.matchesFilters filters)) :=
      ((List.take_sublist _ _).trans (List.drop_sublist _ _)).subset hr
    have hr3 := (List.perm_insertionSort ResourceRepository.byCreatedDesc _).subset hr2
    exact (List.mem_filter.mp hr3).2
  · exact (ceilDiv_le_iff_le_mul hlpos).mp le_rfl
  · exact fun m hm => (ceilDiv_le_iff_le_mul hlpos).mpr hm

/-- C5 witness: a two-row store queried with page 1, limit 1. -/
theorem findAll_spec_witness :
    (1 : Int) ≤ 1 ∧ (1 : Int) ≤ 100 ∧
    ∃ res : ResourceRepository.FindAllResult,
      ResourceRepository.findAll
          (Store.mk [Resource.mk 1 "A" none .other .active 1 5 5 none,
                     Resource.mk 2 "B" none .other .active 2 9 9 none] 3)
          (ResourceFilters.mk none none none none none none) 1 1 = .ok res ∧
      res.resources.length ≤ (1 : Int).toNat ∧
      List.Pairwise (fun a b => b.createdAt ≤ a.createdAt) res.resources ∧
      (∀ r ∈ res.resources, ResourceRepository.matchesFilters
        (ResourceFilters.mk none none none none none none) r = true) ∧
      res.total = ((Store.mk [Resource.mk 1 "A" none .other .active 1 5 5 none,
                     Resource.mk 2 "B" none .other .active 2 9 9 none] 3).rows.filter
        (ResourceRepository.matchesFilters
          (ResourceFilters.mk none none none none none none))).length ∧
      res.totalPages = res.total ⌈/⌉ (1 : Int).toNat ∧
      res.total ≤ (1 : Int).toNat * res.totalPages ∧
      (∀ m : Nat, res.total ≤ (1 : Int).toNat * m → res.totalPages ≤ m) :=
  ⟨le_refl 1, by norm_num,
   findAll_spec
     (Store.mk [Resource.mk 1 "A" none .other .active 1 5 5 none,
                Resource.mk 2 "B" none .other .active 2 9 9 none] 3)
     (ResourceFilters.mk none none none none none none) 1 1
     (le_refl 1) (le_refl 1) (by norm_num)⟩

/-- C1 counterexample: a list request with limit=101 on a one-row store
answers 200 with a page of results and the limit silently clamped to
100 — not 400. -/
theorem getAll_limit101_counterexample :
    ResourceController.getAllResources
        (Store.mk [Resource.mk 1 "A" none .other .active 1 5 5 none] 2)
        (ResourceFilters.mk none none none none none none) none (some "101") 0
      = HttpResp.mk 200
          (.listPage [Resource.mk 1 "A" none .other .active 1 5 5 none] 1 100 1 1) := by
  rfl

/-- C1 amended: the HTTP layer clamps out-of-range pagination (page to
at least 1, limit into [1, 100]) and answers 200; only the repository
layer raises a validation failure for page < 1 or limit outside
[1, 100]. -/
theorem getAll_clamps_spec (st : Store) (filters : ResourceFilters)
    (page limit : Option String) (now : Nat) (p l : Int)
    (hbad : p < 1 ∨ l < 1 ∨ 100 < l) :
    (ResourceController.getAllResources st filters page limit now).status = 200 ∧
    ∃ msg, ResourceRepository.findAll st filters p l = .error msg := by
  constructor
  · unfold ResourceController.getAllResources
    have hp : 1 ≤ max 1 (ResourceController.jsOr
        (ResourceController.parseIntJS (page.getD "1")) 1) := le_max_left _ _
    have hl1 : 1 ≤ min 100 (max 1 (ResourceController.jsOr
        (ResourceController.parseIntJS (limit.getD "20")) 20)) :=
      le_min (by norm_num) (le_max_left _ _)
    have hl2 : min 100 (max 1 (ResourceController.jsOr
        (ResourceController.parseIntJS (limit.getD "20")) 20)) ≤ 100 := min_le_left _ _
    obtain ⟨res, hres, -, -, -, -, -, -, -⟩ := findAll_spec st filters _ _ hp hl1 hl2
    rw [hres]
  · unfold ResourceRepository.findAll
    by_cases hc : p < 1
    · rw [if_pos hc]; exact ⟨_, rfl⟩
    · rw [if_neg hc, if_pos (by omega)]; exact ⟨_, rfl⟩

/-- C1 amended witness: out-of-range repository arguments page 0 and
limit 101 alongside a default controller request. -/
theorem getAll_clamps_spec_witness :
    ((0 : Int) < 1 ∨ (101 : Int) < 1 ∨ 100 < (101 : Int)) ∧
    ((ResourceController.getAllResources (Store.mk [] 1)
        (ResourceFilters.mk none none none none none none) none none 0).status = 200 ∧
     ∃ msg, ResourceRepository.findAll (Store.mk [] 1)
        (ResourceFilters.mk none none none none none none) 0 101 = .error msg) :=
  ⟨Or.inl (by norm_num),
   getAll_clamps_spec (Store.mk [] 1) (ResourceFilters.mk none none none none none none)
     none none 0 0 101 (Or.inl (by norm_num))⟩

/-- C2 counterexample: a storage uniqueness violation (driver code
23505) during a valid create is mapped to a plain error message without
a status code, and the HTTP response carries 500 — not 409. -/
theorem conflict_500_counterexample :
    ResourceRepository.create
        (fun _ _ => .error (DbErr.mk "23505" "duplicate key value violates unique constraint"))
        (Store.mk [] 1) (CreateResourceData.mk "Doc A" 10 none none) 0
      = .error "A resource with this name already exists" ∧
    (ResourceController.createResource
        (fun _ _ => .error (DbErr.mk "23505" "duplicate key value violates unique constraint"))
        (Store.mk [] 1) (CreateResourceData.mk "Doc A" 10 none none) 0).1.status = 500 ∧
    ¬ (ResourceController.createResource
        (fun _ _ => .error (DbErr.mk "23505" "duplicate key value violates unique constraint"))
        (Store.mk [] 1) (CreateResourceData.mk "Doc A" 10 none none) 0).1.status = 409 := by
  refine ⟨rfl, rfl, by decide⟩

/-- C2 amended: the repository maps a storage uniqueness violation to a
plain Error carrying only a duplicate-name message; the centralized
handler gives such errors status 500; the ConflictError class of the
error taxonomy does carry 409 but is unused on this path. -/
theorem conflict_error_mapping (st : Store) (data : CreateResourceData) (now : Nat)
    (e : DbErr) (hcode : e.code = "23505")
    (hname : (jsTrim data.name).isEmpty = false) (hval : ¬ data.value < 0) :
    ResourceRepository.create (fun _ _ => .error e) st data now
      = .error "A resource with this name already exists" ∧
    (errorHandler (ApiError.mk "A resource with this name already exists" none none)
      now).status = 500 ∧
    (ConflictError "A resource with this name already exists").statusCode = some 409 := by
  refine ⟨?_, rfl, rfl⟩
  unfold ResourceRepository.create
  simp [hname, hval, hcode]

/-- C2 amended witness: the mapping exercised at a concrete conflicting
create. -/
theorem conflict_error_mapping_witness :
    (DbErr.mk "23505" "duplicate key").code = "23505" ∧
    (jsTrim "Doc A").isEmpty = false ∧
    ¬ (10 : Rat) < 0 ∧
    (ResourceRepository.create (fun _ _ => .error (DbErr.mk "23505" "duplicate key"))
        (Store.mk [] 1) (CreateResourceData.mk "Doc A" 10 none none) 0
      = .error "A resource with this name already exists" ∧
    (errorHandler (ApiError.mk "A resource with this name already exists" none none)
      7).status = 500 ∧
    (ConflictError "A resource with this name already exists").statusCode = some 409) :=
  ⟨rfl, rfl, by norm_num,
   conflict_error_mapping (Store.mk [] 1) (CreateResourceData.mk "Doc A" 10 none none)
     7 (DbErr.mk "23505" "duplicate key") rfl rfl (by norm_num)⟩

/-- The bulk validation loop rejects at the first invalid element
(empty trimmed name or negative value), naming its absolute index. -/
theorem bulkValidateLoop_first (items : List CreateResourceData) :
    ∀ i, items.findIdx (fun r => (jsTrim r.name).isEmpty || decide (r.value < 0))
        < items.length →
      ∃ msg, ResourceController.bulkValidateLoop items i
          = some (HttpResp.mk 400 (.errMsg msg)) ∧
        (msg = "Resource at index " ++
            toString (i + items.findIdx (fun r => (jsTrim r.name).isEmpty ||
              decide (r.value < 0))) ++ " must have a valid name" ∨
         msg = "Resource at index " ++
            toString (i + items.findIdx (fun r => (jsTrim r.name).isEmpty ||
              decide (r.value < 0))) ++ " must have a valid non-negative value") := by
  induction items with
  | nil => intro i h; simp at h
  | cons r rest ih =>
      intro i h
      by_cases hn : (jsTrim r.name).isEmpty
      · refine ⟨"Resource at index " ++ toString i ++ " must have a valid name",
          ?_, Or.inl ?_⟩
        · simp [ResourceController.bulkValidateLoop, hn]
        · rw [List.findIdx_cons]
          simp [hn]
      · by_cases hv : r.value < 0
        · refine ⟨"Resource at index " ++ toString i ++
              " must have a valid non-negative value", ?_, Or.inr ?_⟩
          · simp [ResourceController.bulkValidateLoop, hn, hv]
          · rw [List.findIdx_cons]
            simp [hn, hv]
        · have hp : ((jsTrim r.name).isEmpty || decide (r.value < 0)) = false := by
            simp [hn, hv]
          have hlt : rest.findIdx (fun x => (jsTrim x.name).isEmpty ||
              decide (x.value < 0)) < rest.length := by
            rw [List.findIdx_cons] at h
            simp only [hp, Bool.cond_false, List.length_cons] at h
            omega
          obtain ⟨msg, hloop, hmsg⟩ := ih (i + 1) hlt
          refine ⟨msg, ?_, ?_⟩
          · simp [ResourceController.bulkValidateLoop, hn, hv, hloop]
          · rw [List.findIdx_cons]
            simp only [hp, Bool.cond_false]
            have e : i + (rest.findIdx (fun x => (jsTrim x.name).isEmpty ||
                  decide (x.value < 0)) + 1)
                = (i + 1) + rest.findIdx (fun x => (jsTrim x.name).isEmpty ||
                  decide (x.value < 0)) := by omega
            rw [e]
            exact hmsg

/-- C3: when the bulk payload contains an invalid element, the
controller answers 400 with a message naming the index of the first
invalid element, the store is unchanged and zero rows are persisted
(the repository is never reached). -/
theorem bulk_invalid_rejected (st : Store) (items : List CreateResourceData)
    (now : Nat)
    (hbad : items.findIdx (fun r => (jsTrim r.name).isEmpty || decide (r.value < 0))
      < items.length) :
    ∃ msg, ResourceController.bulkCreateResources st (some items) now
        = (HttpResp.mk 400 (.errMsg msg), st) ∧
      (msg = "Resource at index " ++ toString (items.findIdx (fun r =>
          (jsTrim r.name).isEmpty || decide (r.value < 0))) ++
          " must have a valid name" ∨
       msg = "Resource at index " ++ toString (items.findIdx (fun r =>
          (jsTrim r.name).isEmpty || decide (r.value < 0))) ++
          " must have a valid non-negative value") := by
  obtain ⟨msg, hloop, hmsg⟩ := bulkValidateLoop_first items 0 hbad
  have hne : items.isEmpty = false := by
    cases items
    · simp at hbad
    · rfl
  refine ⟨msg, ?_, by simpa using hmsg⟩
  unfold ResourceController.bulkCreateResources
  simp [hne, hloop]

/-- C3 witness: the second element of the bulk payload has an empty
name; the request is rejected naming index 1 and persisting nothing. -/
theorem bulk_invalid_rejected_witness :
    [CreateResourceData.mk "A" 1 none none,
     CreateResourceData.mk "" 2 none none].findIdx (fun r =>
        (jsTrim r.name).isEmpty || decide (r.value < 0)) <
      [CreateResourceData.mk "A" 1 none none,
       CreateResourceData.mk "" 2 none none].length ∧
    ∃ msg, ResourceController.bulkCreateResources (Store.mk [] 1)
        (some [CreateResourceData.mk "A" 1 none none,
               CreateResourceData.mk "" 2 none none]) 0
        = (HttpResp.mk 400 (.errMsg msg), Store.mk [] 1) ∧
      (msg = "Resource at index " ++ toString ([CreateResourceData.mk "A" 1 none none,
          CreateResourceData.mk "" 2 none none].findIdx (fun r =>
          (jsTrim r.name).isEmpty || decide (r.value < 0))) ++
          " must have a valid name" ∨
       msg = "Resource at index " ++ toString ([CreateResourceData.mk "A" 1 none none,
          CreateResourceData.mk "" 2 none none].findIdx (fun r =>
          (jsTrim r.name).isEmpty || decide (r.value < 0))) ++
          " must have a valid non-negative value") :=
  ⟨by decide,
   bulk_invalid_rejected (Store.mk [] 1)
     [CreateResourceData.mk "A" 1 none none, CreateResourceData.mk "" 2 none none] 0
     (by decide)⟩

/-- C8: every response of the centralized error handler is exactly the
envelope with an error object holding message, statusCode and
timestamp; the body contains no stack key at any depth, and an error
carrying no status code is answered with status 500. -/
theorem errorHandler_spec (err : ApiError) (now : Nat) :
    ∃ (statusCode : Int) (message : String),
      errorHandler err now = HttpResp.mk statusCode (.json (JVal.obj
        [("error".toList, JVal.obj
          [("message".toList, .str message.toList),
           ("statusCode".toList, .num (statusCode : Rat)),
           ("timestamp".toList, .str (toString now).toList)])])) ∧
      (err.statusCode = none → statusCode = 500) ∧
      hasKeyDeep "stack".toList (JVal.obj
        [("error".toList, JVal.obj
          [("message".toList, .str message.toList),
           ("statusCode".toList, .num (statusCode : Rat)),
           ("timestamp".toList, .str (toString now).toList)])]) = false := by
  refine ⟨(match err.statusCode with
      | some s => if s = 0 then 500 else s
      | none => 500),
    (if err.message = "" then "Internal Server Error" else err.message),
    rfl, ?_, rfl⟩
  intro h
  rw [h]

/-- C8 witness: a plain error with no status code at timestamp 0. -/
theorem errorHandler_spec_witness :
    ∃ (statusCode : Int) (message : String),
      errorHandler (ApiError.mk "boom" none none) 0 = HttpResp.mk statusCode
        (.json (JVal.obj
          [("error".toList, JVal.obj
            [("message".toList, .str message.toList),
             ("statusCode".toList, .num (statusCode : Rat)),
             ("timestamp".toList, .str (toString (0 : Nat)).toList)])])) ∧
      ((ApiError.mk "boom" none none).statusCode = none → statusCode = 500) ∧
      hasKeyDeep "stack".toList (JVal.obj
        [("error".toList, JVal.obj
          [("message".toList, .str message.toList),
           ("statusCode".toList, .num (statusCode : Rat)),
           ("timestamp".toList, .str (toString (0 : Nat)).toList)])]) = false :=
  errorHandler_spec (ApiError.mk "boom" none none) 0

/-- The head surviving a dropWhile fails the dropped predicate. -/
theorem head?_dropWhile_not (p : Char → Bool) (l : List Char) :
    ∀ c, (l.dropWhile p).head? = some c → p c = false := by
  induction l with
  | nil => intro c h; simp at h
  | cons a t ih =>
      intro c h
      by_cases hpa : p a
      · rw [List.dropWhile_cons_of_pos hpa] at h
        exact ih c h
      · rw [List.dropWhile_cons_of_neg hpa] at h
        simp at h
        subst h
        simpa using hpa

/-- dropWhile removes only from the front, so a last element failing
the predicate keeps failing it. -/
theorem getLast?_dropWhile_not (p : Char → Bool) :
    ∀ l : List Char, (∀ c, l.getLast? = some c → p c = false) →
      ∀ c, (l.dropWhile p).getLast? = some c → p c = false := by
  intro l
  induction l with
  | nil => intro _ c h; simp at h
  | cons a t ih =>
      intro hl c h
      by_cases hpa : p a
      · rw [List.dropWhile_cons_of_pos hpa] at h
        refine ih ?_ c h
        intro d hd
        apply hl
        cases t with
        | nil => simp at hd
        | cons b u => rw [List.getLast?_cons_cons]; exact hd
      · rw [List.dropWhile_cons_of_neg hpa] at h
        exact hl c h

/-- The JS trim leaves no whitespace at either end. -/
theorem noEdgeSpace_trimChars (s : List Char) : noEdgeSpace (trimChars s) = true := by
  unfold noEdgeSpace trimChars
  rw [Bool.and_eq_true]
  constructor
  · rw [List.head?_reverse]
    cases hB : ((s.dropWhile isJsSpace).reverse.dropWhile isJsSpace).getLast? with
    | none => rfl
    | some c =>
        have hl : ∀ d, (s.dropWhile isJsSpace).reverse.getLast? = some d →
            isJsSpace d = false := by
          intro d hd
          rw [List.getLast?_reverse] at hd
          exact head?_dropWhile_not isJsSpace s d hd
        have hc := getLast?_dropWhile_not isJsSpace (s.dropWhile isJsSpace).reverse hl c hB
        simp [hc]
  · rw [List.getLast?_reverse]
    cases hB : ((s.dropWhile isJsSpace).reverse.dropWhile isJsSpace).head? with
    | none => rfl
    | some c =>
        have hc := head?_dropWhile_not isJsSpace (s.dropWhile isJsSpace).reverse c hB
        simp [hc]

/-- Every sanitized string is trimmed (the trim is the outermost pass
of `sanitizeValue`). -/
theorem noEdgeSpace_sanitizeString (s : List Char) :
    noEdgeSpace (sanitizeString s) = true :=
  noEdgeSpace_trimChars (removeOnHandlers (removeJSProto (removeScriptTags s)))

mutual

/-- Sanitized values keep no dangerous key at any nesting depth. -/
theorem keysOk_sanitizeObject : ∀ j : JVal, keysOk (sanitizeObject j) = true
  | .str _ => rfl
  | .num _ => rfl
  | .boolean _ => rfl
  | .null => rfl
  | .arr elements => keysOkArr_sanitizeArr elements
  | .obj entries => keysOkEntries_sanitizeEntries entries

theorem keysOkArr_sanitizeArr : ∀ xs : List JVal, keysOkArr (sanitizeArr xs) = true
  | [] => rfl
  | x :: xs => by
      show (keysOk (sanitizeObject x) && keysOkArr (sanitizeArr xs)) = true
      rw [keysOk_sanitizeObject x, keysOkArr_sanitizeArr xs]
      rfl

theorem keysOkEntries_sanitizeEntries :
    ∀ kvs : List (List Char × JVal), keysOkEntries (sanitizeEntries kvs) = true
  | [] => rfl
  | (k, v) :: rest => by
      show keysOkEntries (if badKey k then sanitizeEntries rest
        else (k, sanitizeObject v) :: sanitizeEntries rest) = true
      by_cases h : badKey k
      · rw [if_pos h]
        exact keysOkEntries_sanitizeEntries rest
      · rw [if_neg h]
        show (!badKey k && keysOk (sanitizeObject v) &&
          keysOkEntries (sanitizeEntries rest)) = true
        rw [keysOk_sanitizeObject v, keysOkEntries_sanitizeEntries rest]
        simp [h]

end

mutual

/-- Every string value of a sanitized value is trimmed, at any
nesting depth. -/
theorem stringsTrimmed_sanitizeObject :
    ∀ j : JVal, stringsTrimmed (sanitizeObject j) = true
  | .str s => noEdgeSpace_sanitizeString s
  | .num _ => rfl
  | .boolean _ => rfl
  | .null => rfl
  | .arr elements => stringsTrimmedArr_sanitizeArr elements
  | .obj entries => stringsTrimmedEntries_sanitizeEntries entries

theorem stringsTrimmedArr_sanitizeArr :
    ∀ xs : List JVal, stringsTrimmedArr (sanitizeArr xs) = true
  | [] => rfl
  | x :: xs => by
      show (stringsTrimmed (sanitizeObject x) && stringsTrimmedArr (sanitizeArr xs)) = true
      rw [stringsTrimmed_sanitizeObject x, stringsTrimmedArr_sanitizeArr xs]
      rfl

theorem stringsTrimmedEntries_sanitizeEntries :
    ∀ kvs : List (List Char × JVal), stringsTrimmedEntries (sanitizeEntries kvs) = true
  | [] => rfl
  | (k, v) :: rest => by
      show stringsTrimmedEntries (if badKey k then sanitizeEntries rest
        else (k, sanitizeObject v) :: sanitizeEntries rest) = true
      by_cases h : badKey k
      · rw [if_pos h]
        exact stringsTrimmedEntries_sanitizeEntries rest
      · rw [if_neg h]
        show (stringsTrimmed (sanitizeObject v) &&
          stringsTrimmedEntries (sanitizeEntries rest)) = true
        rw [stringsTrimmed_sanitizeObject v, stringsTrimmedEntries_sanitizeEntries rest]
        rfl

end

/-- C10 counterexample: the removal passes are single left-to-right
scans, so nested occurrences reassemble: sanitizing the one-element
array holding "jjavascript:avascript:alert(1)" yields a string that
itself starts with the "javascript:" pattern the claim says is
removed. -/
theorem sanitize_bypass_counterexample :
    sanitizeObject (JVal.arr [JVal.str "jjavascript:avascript:alert(1)".toList])
      = JVal.arr [JVal.str "javascript:alert(1)".toList] ∧
    "javascript:".toList.isPrefixOf "javascript:alert(1)".toList = true :=
  ⟨rfl, rfl⟩

/-- C10 amended: sanitization removes, at every nesting depth, the
object keys equal to constructor or prototype or starting with two
underscores, and every string value of the result is trimmed; the
script-tag, javascript:-scheme and event-handler patterns undergo one
left-to-right removal pass each, which crafted nested occurrences can
survive. -/
theorem sanitizeObject_guarantees (j : JVal) :
    keysOk (sanitizeObject j) = true ∧ stringsTrimmed (sanitizeObject j) = true :=
  ⟨keysOk_sanitizeObject j, stringsTrimmed_sanitizeObject j⟩
